import Mathlib

/-!
The TxFAX session bridge of `app_txfax.c`.

A shallow embedding of `src/app_txfax.c` (the Asterisk application that sends a
TIFF file as a FAX) and the properties of its option parser, format
negotiation, bridge loop and completion handler.

Conventions of the embedding.

* A C string is the list of its bytes before the terminating NUL (`CStr`); a
  pointer into a string is the suffix of the list that starts there, so
  `s - t` is a difference of lengths and `s++` drops one byte.
* C `int` values the code only compares or returns are `Int`.
* Calls into Asterisk and spandsp are answered by an oracle (`Oracle`, `Tick`)
  and recorded in a trace of events (`Ev`), in program order; `ast_log` calls are
  not recorded, and what the engine does inside `fax_rx` and `fax_tx` (among it
  the call of the completion handler) is outside the trace.
* A write past the end of the local array `__buf` is an outcome of its own
  (`overrun`): the program has no defined behaviour from there on.
* Constants of the Asterisk and spandsp headers, which are not part of this
  repository, are the fields of `Consts`.
-/

namespace TxFax

/-! ## Constants and data -/

/-- A C string: its bytes before the terminating NUL. -/
abbrev CStr := List Char

/-- Header constants the source uses but does not define. -/
structure Consts where
  AST_FORMAT_SLINEAR : Int
  AST_FRAME_VOICE : Int
  AST_STATE_UP : Int
  AST_FRIENDLY_OFFSET : Nat
  T30_ERR_OK : Int
  deriving DecidableEq, Repr

/-- The `#define MAX_BLOCK_SIZE 240` of line 58. -/
def MAX_BLOCK_SIZE : Nat := 240

/-- Bytes available from `buf = __buf + AST_FRIENDLY_OFFSET` to the end of
`__buf[sizeof(uint16_t)*MAX_BLOCK_SIZE + 2*AST_FRIENDLY_OFFSET]` (lines 126-127). -/
def buf_size (k : Consts) : Nat :=
  2 * MAX_BLOCK_SIZE + 2 * k.AST_FRIENDLY_OFFSET - k.AST_FRIENDLY_OFFSET

/-! ## libc string functions on `CStr` -/

/-- The libc `strchr(s, c)`: the suffix starting at the first `c`, or NULL. -/
def strchr : CStr → Char → Option CStr
  | [], _ => none
  | x :: xs, c => if x = c then some (x :: xs) else strchr xs c

/-- The libc `strncmp(a, b, n)`: the difference of the first differing bytes among
the first `n`, the end of a list standing for its NUL. -/
def strncmp : CStr → CStr → Nat → Int
  | _, _, 0 => 0
  | [], [], _ + 1 => 0
  | [], y :: _, _ + 1 => 0 - (y.toNat : Int)
  | x :: _, [], _ + 1 => (x.toNat : Int)
  | x :: xs, y :: ys, n + 1 =>
    if x = y then strncmp xs ys n else (x.toNat : Int) - (y.toNat : Int)

/-- The libc `strncpy(dst, src, n)` followed by `dst[n] = 0`, for a source of at
least `n` bytes: the C string left in `dst`. -/
def strncpy (src : CStr) (n : Nat) : CStr := src.take n

/-! ## The option parser (lines 145-173) -/

/-- The three locals the parser fills in. -/
structure Parsed where
  source_file : CStr
  calling_party : Bool
  verbose : Bool
  deriving DecidableEq, Repr

/-- What the parsing loop comes to: the parsed locals, a write past the end of
`__buf`, or (for the fuelled loop only) fuel exhausted. -/
inductive ParseOut where
  | ok (p : Parsed)
  | overrun
  | fuel
  deriving DecidableEq, Repr

/-- The body of the `for` loop of lines 149-173 for the field that starts at `t`
and is `n` bytes long (`n = s - t`), after the copy into `buf`. -/
def parse_field (option : Nat) (t : CStr) (n : Nat) (st : Parsed) : Parsed :=
  if option = 0 then
    let len := if n > 255 then 255 else n
    { st with source_file := strncpy t len }
  else if strncmp "caller".toList t n = 0 then
    { st with calling_party := true }
  else if strncmp "debug".toList t n = 0 then
    { st with verbose := true }
  else st

/-- The loop `for (option = 0, v = s = data; v; option++, s++)` of lines 149-173,
entered with `v` non-NULL and `s` the rest of the string; one unit of fuel per
iteration. `strncpy(buf, t, s - t); buf[s - t] = 0` writes `s - t + 1` bytes into
`buf`, which holds `cap`. -/
def parse_loop (cap : Nat) : Nat → Nat → CStr → Parsed → ParseOut
  | 0, _, _, _ => .fuel
  | fuel + 1, option, s, st =>
    let t := s
    let v := strchr s '|'
    let s1 : CStr := match v with
      | some p => p
      | none => []
    let n := t.length - s1.length
    if cap < n + 1 then .overrun
    else
      let st1 := parse_field option t n st
      match v with
      | none => .ok st1
      | some p => parse_loop cap fuel (option + 1) (p.drop 1) st1

/-- Lines 145-173: the locals are initialised and the loop is run over `data`. -/
def txfax_parse (k : Consts) (data : CStr) : ParseOut :=
  parse_loop (buf_size k) (data.length + 1) 0 data
    { source_file := [], calling_party := false, verbose := false }

/-! ## Channel, oracle and events -/

/-- The fields of `struct ast_channel` the code reads, and its variables as
`pbx_builtin_getvar_helper` answers them (NULL is `none`). -/
structure Chan where
  _state : Int
  readformat : Int
  writeformat : Int
  vars : String → Option CStr

/-- The fields of an inbound `struct ast_frame` the code reads. -/
structure Frame where
  frametype : Int
  samples : Int
  deriving DecidableEq, Repr

/-- The fields of the outbound frame `outf` the code sets (lines 243-249); the
`memset` leaves every other field zero. -/
structure OutFrame where
  frametype : Int
  subclass : Int
  datalen : Int
  samples : Int
  offset : Int
  deriving DecidableEq, Repr

/-- Which statement issues a format request: the forward switch to linear PCM
(lines 191, 201) or the request that puts an original value back (lines 205,
266, 272). -/
inductive Role where
  | acquire
  | restore
  deriving DecidableEq, Repr

/-- The calls `txfax_exec` makes, with their arguments (logging calls are left
out). -/
inductive Ev where
  | span_set_message_handler
  | ast_module_user_add
  | ast_module_user_remove
  | ast_answer
  | ast_set_read_format (fmt : Int) (role : Role)
  | ast_set_write_format (fmt : Int) (role : Role)
  | fax_init (calling_party : Bool)
  | set_logging_level
  | t30_set_local_ident (x : CStr)
  | t30_set_header_info (x : CStr)
  | t30_set_tx_file (file : CStr)
  | t30_set_phase_e_handler
  | t30_set_ecm_capability
  | t30_set_supported_compressions
  | ast_waitfor
  | ast_read
  | fax_rx (samples : Int)
  | fax_tx (max_samples : Int)
  | ast_write (f : OutFrame)
  | ast_frfree
  | t30_terminate
  deriving DecidableEq, Repr

/-- The answers of the channel and the engine to one pass of the bridge loop:
`ast_waitfor`, `ast_read` (NULL is `none`), `fax_rx`, `fax_tx`, `ast_write`. An
answer is used only if the pass makes the call. -/
structure Tick where
  waitfor : Int
  read : Option Frame
  rx : Int
  tx : Int
  write : Int
  deriving DecidableEq, Repr

/-- The answers of the channel to the calls outside the loop, by call site, and
the passes of the loop. -/
structure Oracle where
  answer : Int
  set_read_slinear : Int
  set_write_slinear : Int
  undo_read : Int
  ticks : List Tick
  restore_read : Int
  restore_write : Int
  deriving DecidableEq, Repr

/-- The result of `txfax_exec` with the calls made: it returned `res`, it wrote
past `__buf` while parsing, or it is still running (in the loop, waiting for the
channel) when the oracle has no further pass. -/
inductive Outcome where
  | ret (res : Int) (trace : List Ev)
  | overrun (trace : List Ev)
  | running (trace : List Ev)
  deriving DecidableEq, Repr

/-- Conversion of an integer to the 32-bit `int` it is stored in. -/
def to_int (x : Int) : Int := (x + 2 ^ 31) % 2 ^ 32 - 2 ^ 31

/-! ## The bridge loop (lines 227-258) -/

/-- The frame built at lines 243-249 for `len` generated samples;
`len*sizeof(int16_t)` is computed in `size_t` and stored in the `int` field. -/
def make_outf (k : Consts) (len : Int) : OutFrame :=
  { frametype := k.AST_FRAME_VOICE
    subclass := k.AST_FORMAT_SLINEAR
    datalen := to_int (len * 2)
    samples := len
    offset := k.AST_FRIENDLY_OFFSET }

/-- One pass of the loop body, lines 229-257, entered with result `res`: the calls
made, and `some (res, inf == NULL)` when the pass leaves the loop by `break`. -/
def bridge_step (k : Consts) (t : Tick) (res : Int) : List Ev × Option (Int × Bool) :=
  match t.read with
  | none => ([.ast_read], some (-1, true))
  | some inf =>
    if inf.frametype = k.AST_FRAME_VOICE then
      if t.rx ≠ 0 then ([.ast_read, .fax_rx inf.samples], some (res, false))
      else
        let samples := if inf.samples ≤ MAX_BLOCK_SIZE then inf.samples else MAX_BLOCK_SIZE
        let len := t.tx
        if len ≠ 0 then
          let outf := make_outf k len
          if t.write < 0 then
            ([.ast_read, .fax_rx inf.samples, .fax_tx samples, .ast_write outf],
              some (res, false))
          else
            ([.ast_read, .fax_rx inf.samples, .fax_tx samples, .ast_write outf, .ast_frfree],
              none)
        else ([.ast_read, .fax_rx inf.samples, .fax_tx samples, .ast_frfree], none)
    else ([.ast_read, .ast_frfree], none)

/-- The loop `while (ast_waitfor(chan, -1) > -1)` of lines 227-258, entered with
result `res` and `inf_null = (inf == NULL)`: the calls made and, when the loop
ends within the given passes, the result and whether `inf` is NULL. -/
def bridge_loop (k : Consts) : List Tick → Int → Bool → List Ev × Option (Int × Bool)
  | [], _, _ => ([], none)
  | t :: ts, res, inf_null =>
    if t.waitfor > -1 then
      match bridge_step k t res with
      | (evs, some e) => (.ast_waitfor :: evs, some e)
      | (evs, none) =>
        let r := bridge_loop k ts res false
        (.ast_waitfor :: evs ++ r.1, r.2)
    else ([.ast_waitfor], some (res, inf_null))

/-! ## Session set-up and release -/

/-- Lines 211-226: the engine is created and configured. -/
def engine_setup (c : Chan) (p : Parsed) : List Ev :=
  [.fax_init p.calling_party]
  ++ (if p.verbose then [.set_logging_level] else [])
  ++ (match c.vars "LOCALSTATIONID" with
      | some (x0 :: x) => [.t30_set_local_ident (x0 :: x)]
      | _ => [])
  ++ (match c.vars "LOCALHEADERINFO" with
      | some (x0 :: x) => [.t30_set_header_info (x0 :: x)]
      | _ => [])
  ++ [.t30_set_tx_file p.source_file, .t30_set_phase_e_handler,
      .t30_set_ecm_capability, .t30_set_supported_compressions]

/-- Lines 264-275: the original encodings are put back; `res` receives the
answer of each request made. -/
def release (k : Consts) (o : Oracle) (original_read_fmt original_write_fmt : Int)
    (res : Int) : Int × List Ev :=
  let r1 : Int × List Ev :=
    if original_read_fmt ≠ k.AST_FORMAT_SLINEAR then
      (o.restore_read, [.ast_set_read_format original_read_fmt .restore])
    else (res, [])
  if original_write_fmt ≠ k.AST_FORMAT_SLINEAR then
    (o.restore_write, r1.2 ++ [.ast_set_write_format original_write_fmt .restore])
  else r1

/-- Lines 211-283, once both encodings are linear PCM: engine set-up, the loop,
the hangup test of lines 259-263, release, and the return. `pre` is the calls
made so far and `res` the result so far. -/
def run_session (k : Consts) (c : Chan) (o : Oracle) (p : Parsed) (pre : List Ev)
    (res : Int) : Outcome :=
  let original_read_fmt := c.readformat
  let original_write_fmt := c.writeformat
  let setup := engine_setup c p
  match bridge_loop k o.ticks res true with
  | (evs, none) => .running (pre ++ setup ++ evs)
  | (evs, some (res1, inf_null)) =>
    let res2 := if inf_null then -1 else res1
    let r := release k o original_read_fmt original_write_fmt res2
    .ret r.1 (pre ++ setup ++ evs ++ r.2 ++ [.t30_terminate, .ast_module_user_remove])

/-- Lines 186-210 and what follows, entered when `res` is zero: the forward
negotiation of the read and write encodings, then the session. The answer of the
restoring request of line 205 (`o.undo_read`) only decides whether a warning is
logged. -/
def negotiate (k : Consts) (c : Chan) (o : Oracle) (p : Parsed) (pre : List Ev) : Outcome :=
  let original_read_fmt := c.readformat
  let rd : Int × List Ev :=
    if original_read_fmt ≠ k.AST_FORMAT_SLINEAR then
      (o.set_read_slinear, [.ast_set_read_format k.AST_FORMAT_SLINEAR .acquire])
    else (0, [])
  if original_read_fmt ≠ k.AST_FORMAT_SLINEAR ∧ rd.1 < 0 then .ret (-1) (pre ++ rd.2)
  else
    let original_write_fmt := c.writeformat
    let wr : Int × List Ev :=
      if original_write_fmt ≠ k.AST_FORMAT_SLINEAR then
        (o.set_write_slinear, [.ast_set_write_format k.AST_FORMAT_SLINEAR .acquire])
      else (rd.1, [])
    if original_write_fmt ≠ k.AST_FORMAT_SLINEAR ∧ wr.1 < 0 then
      .ret (-1) (pre ++ rd.2 ++ wr.2 ++ [.ast_set_read_format original_read_fmt .restore])
    else run_session k c o p (pre ++ rd.2 ++ wr.2) wr.1

/-- The function `txfax_exec(chan, data)` of lines 104-284; a NULL pointer is
`none`. -/
def txfax_exec (k : Consts) (chan : Option Chan) (data : Option CStr) (o : Oracle) : Outcome :=
  match chan with
  | none => .ret (-1) []
  | some c =>
    match data with
    | none => .ret (-1) [.span_set_message_handler]
    | some d =>
      match txfax_parse k d with
      | .fuel => .running [.span_set_message_handler]
      | .overrun => .overrun [.span_set_message_handler]
      | .ok p =>
        let pre : List Ev := [.span_set_message_handler, .ast_module_user_add]
        let ans : Int × List Ev :=
          if c._state ≠ k.AST_STATE_UP then (o.answer, [.ast_answer]) else (0, [])
        if ans.1 = 0 then negotiate k c o p (pre ++ ans.2)
        else .ret ans.1 (pre ++ ans.2 ++ [.ast_module_user_remove])

/-! ## The completion handler (lines 82-101) -/

/-- The channel variables: the value of each name, if set. -/
abbrev Env := String → Option CStr

/-- The effect of `pbx_builtin_setvar_helper(chan, name, value)` with a non-NULL
value on the channel variables. -/
def pbx_builtin_setvar_helper (env : Env) (name : String) (value : CStr) : Env :=
  fun n => if n = name then some value else env n

/-- The function `phase_e_handler(s, user_data, result)`: `far_ident` is what
`t30_get_far_ident` copies out of the engine state `s`; the result is the channel
variables afterwards and the list of `pbx_builtin_setvar_helper` calls made. -/
def phase_e_handler (k : Consts) (far_ident : CStr) (env : Env) (result : Int) :
    Env × List (String × CStr) :=
  if result = k.T30_ERR_OK then
    let env1 := pbx_builtin_setvar_helper env "REMOTESTATIONID" far_ident
    let env2 := pbx_builtin_setvar_helper env1 "TXFAXRESULT" "SUCCESS".toList
    (env2, [("REMOTESTATIONID", far_ident), ("TXFAXRESULT", "SUCCESS".toList)])
  else
    let env1 := pbx_builtin_setvar_helper env "TXFAXRESULT" "ERROR".toList
    (env1, [("TXFAXRESULT", "ERROR".toList)])

/-! ## Concrete inputs -/

/-- The values the Asterisk 1.4 and spandsp headers give the constants. -/
def asterisk14 : Consts :=
  { AST_FORMAT_SLINEAR := 64, AST_FRAME_VOICE := 2, AST_STATE_UP := 6,
    AST_FRIENDLY_OFFSET := 64, T30_ERR_OK := 0 }

/-- An answered channel with the given encodings and no variables set. -/
def chan_up (rd wr : Int) : Chan :=
  { _state := 6, readformat := rd, writeformat := wr, vars := fun _ => none }

/-- An oracle whose requests all succeed, with the given loop passes. -/
def oracle_ok (ticks : List Tick) : Oracle :=
  { answer := 0, set_read_slinear := 0, set_write_slinear := 0, undo_read := 0,
    ticks := ticks, restore_read := 0, restore_write := 0 }

/-- A pass in which `ast_read` reports end of stream. -/
def tick_hangup : Tick := { waitfor := 0, read := none, rx := 0, tx := 0, write := 0 }

/-- A pass with a voice frame of `n` samples, the engine answering `rx` to the
feed and `tx` to the drain, and `ast_write` answering `w`. -/
def tick_voice (n rx tx w : Int) : Tick :=
  { waitfor := 0, read := some { frametype := 2, samples := n }, rx := rx, tx := tx, write := w }

/-- An oracle for a hangup at the first read, with the read restore failing. -/
def oracle_hangup : Oracle := { oracle_ok [tick_hangup] with restore_read := -1 }

/-- The calls of the run of `f` on `chan_up 4 8` under `oracle_hangup`. -/
def hangup_trace : List Ev :=
  [.span_set_message_handler, .ast_module_user_add,
   .ast_set_read_format 64 .acquire, .ast_set_write_format 64 .acquire,
   .fax_init false, .t30_set_tx_file "f".toList, .t30_set_phase_e_handler,
   .t30_set_ecm_capability, .t30_set_supported_compressions,
   .ast_waitfor, .ast_read,
   .ast_set_read_format 4 .restore, .ast_set_write_format 8 .restore,
   .t30_terminate, .ast_module_user_remove]

/-- The invocation string made of a first field and flag tokens, each token
preceded by the delimiter. -/
def join_tokens : List CStr → CStr
  | [] => []
  | t :: ts => '|' :: (t ++ join_tokens ts)

/-- What the loop does with a list of fields, from field number `option` on. -/
def fold_fields (cap : Nat) : Nat → List CStr → Parsed → ParseOut
  | _, [], st => .ok st
  | option, t :: ts, st =>
    if cap < t.length + 1 then .overrun
    else fold_fields cap (option + 1) ts (parse_field option t t.length st)

/-- Whether the first `n` bytes of a token compare equal to `"caller"`. -/
def is_caller (t : CStr) : Bool := decide (strncmp "caller".toList t t.length = 0)

/-- Whether a token fails the `"caller"` test and passes the `"debug"` one. -/
def is_debug (t : CStr) : Bool :=
  !is_caller t && decide (strncmp "debug".toList t t.length = 0)

/-- Whether a call is an `ast_write`. -/
def Ev.is_write : Ev → Bool
  | .ast_write _ => true
  | _ => false

/-- Whether a call is a request to change the read or write encoding. -/
def Ev.is_format_request : Ev → Bool
  | .ast_set_read_format _ _ => true
  | .ast_set_write_format _ _ => true
  | _ => false

/-- The calls made up to the end of the answer step (lines 135-184) on a non-NULL
channel with a parsed string. -/
def entry_events (k : Consts) (c : Chan) : List Ev :=
  [.span_set_message_handler, .ast_module_user_add]
  ++ (if c._state ≠ k.AST_STATE_UP then [.ast_answer] else [])

/-- Whether a pass ends the loop: `ast_waitfor` answers below zero, or the body
leaves by `break`. -/
def tick_ends (k : Consts) (t : Tick) : Bool :=
  decide (¬ t.waitfor > -1) || (bridge_step k t 0).2.isSome

/-- Whether the loop ends within the given passes. -/
def loop_ends (k : Consts) (ticks : List Tick) : Bool := ticks.any (tick_ends k)

/-- The forward request for the read encoding is made and fails (lines 189-196). -/
def read_failed (k : Consts) (c : Chan) (o : Oracle) : Prop :=
  c.readformat ≠ k.AST_FORMAT_SLINEAR ∧ o.set_read_slinear < 0

/-- The forward request for the read encoding is made and does not fail. -/
def read_changed (k : Consts) (c : Chan) (o : Oracle) : Prop :=
  c.readformat ≠ k.AST_FORMAT_SLINEAR ∧ ¬ o.set_read_slinear < 0

/-- The forward request for the write encoding is reached, made, and fails (lines
199-209). -/
def write_failed (k : Consts) (c : Chan) (o : Oracle) : Prop :=
  ¬ read_failed k c o ∧ c.writeformat ≠ k.AST_FORMAT_SLINEAR ∧ o.set_write_slinear < 0

/-- The forward request for the write encoding is reached, made, and does not fail. -/
def write_changed (k : Consts) (c : Chan) (o : Oracle) : Prop :=
  ¬ read_failed k c o ∧ c.writeformat ≠ k.AST_FORMAT_SLINEAR ∧ ¬ o.set_write_slinear < 0

/-! ## Lemmas on the string functions -/

theorem strchr_none_of_not_mem (t : CStr) (c : Char) (h : c ∉ t) : strchr t c = none := by
  induction t with
  | nil => rfl
  | cons x xs ih =>
    simp only [List.mem_cons, not_or] at h
    have hx : ¬ x = c := fun e => h.1 e.symm
    simp [strchr, hx, ih h.2]

theorem strchr_append_of_not_mem (t rest : CStr) (c : Char) (h : c ∉ t) :
    strchr (t ++ c :: rest) c = some (c :: rest) := by
  induction t with
  | nil => simp [strchr]
  | cons x xs ih =>
    simp only [List.mem_cons, not_or] at h
    have hx : ¬ x = c := fun e => h.1 e.symm
    simp [strchr, hx, ih h.2]

theorem strchr_some_length (s : CStr) (c : Char) (p : CStr) (h : strchr s c = some p) :
    p.length ≤ s.length ∧ 0 < p.length := by
  induction s with
  | nil => simp [strchr] at h
  | cons x xs ih =>
    by_cases hx : x = c
    · simp [strchr, hx] at h
      subst h
      simp
    · simp [strchr, hx] at h
      have := ih h
      simp only [List.length_cons]
      omega

theorem strncmp_append (pat t rest : CStr) :
    strncmp pat (t ++ rest) t.length = strncmp pat t t.length := by
  induction t generalizing pat with
  | nil => cases pat <;> simp [strncmp]
  | cons y ys ih =>
    cases pat with
    | nil => simp [strncmp]
    | cons x xs =>
      by_cases hxy : x = y
      · simp [strncmp, hxy, ih]
      · simp [strncmp, hxy]

theorem char_eq_of_toNat_eq (x y : Char) (h : x.toNat = y.toNat) : x = y := by
  have hx := Char.ofNat_toNat x
  rw [h, Char.ofNat_toNat] at hx
  exact hx.symm

/-- The test `strncmp(pat, t, s - t) == 0` on a token of NUL-free bytes holds exactly
when the token is an initial segment of `pat`, the empty token included. -/
theorem strncmp_eq_zero_iff (pat t : CStr) (ht : ∀ c ∈ t, c.toNat ≠ 0) :
    strncmp pat t t.length = 0 ↔ t <+: pat := by
  induction t generalizing pat with
  | nil => cases pat <;> simp [strncmp]
  | cons y ys ih =>
    have hy : y.toNat ≠ 0 := ht y (List.mem_cons_self _ _)
    have hys : ∀ c ∈ ys, c.toNat ≠ 0 := fun c hc => ht c (List.mem_cons_of_mem _ hc)
    cases pat with
    | nil =>
      simp only [List.length_cons, strncmp, List.prefix_nil]
      constructor
      · intro h; omega
      · intro h; cases h
    | cons x xs =>
      by_cases hxy : x = y
      · subst hxy
        simp only [List.length_cons, strncmp, if_true, List.cons_prefix_cons, true_and]
        exact ih xs hys
      · simp only [List.length_cons, strncmp, hxy, if_false, List.cons_prefix_cons]
        constructor
        · intro h
          exact absurd (char_eq_of_toNat_eq x y (by omega)) hxy
        · intro h
          exact absurd h.1.symm hxy

theorem parse_field_append (option : Nat) (t rest : CStr) (st : Parsed) :
    parse_field option (t ++ rest) t.length st = parse_field option t t.length st := by
  unfold parse_field
  simp only [strncmp_append, strncpy]
  by_cases h0 : option = 0
  · simp only [h0, if_true]
    have : (if t.length > 255 then 255 else t.length) ≤ t.length := by split <;> omega
    rw [List.take_append_of_le_length this]
  · simp only [h0, if_false]

/-! ## One pass of the parsing loop -/

theorem parse_loop_last (cap fuel option : Nat) (t : CStr) (st : Parsed)
    (ht : '|' ∉ t) :
    parse_loop cap (fuel + 1) option t st =
      if cap < t.length + 1 then .overrun
      else .ok (parse_field option t t.length st) := by
  simp [parse_loop, strchr_none_of_not_mem t '|' ht]

theorem parse_loop_more (cap fuel option : Nat) (t rest : CStr) (st : Parsed)
    (ht : '|' ∉ t) :
    parse_loop cap (fuel + 1) option (t ++ '|' :: rest) st =
      if cap < t.length + 1 then .overrun
      else parse_loop cap fuel (option + 1) rest (parse_field option t t.length st) := by
  have hlen : (t ++ '|' :: rest).length - ('|' :: rest).length = t.length := by
    simp
  simp only [parse_loop, strchr_append_of_not_mem t rest '|' ht, hlen]
  simp [parse_field_append]

theorem parse_loop_fields (cap : Nat) (ts : List CStr) :
    ∀ (fuel option : Nat) (t : CStr) (st : Parsed), '|' ∉ t → (∀ u ∈ ts, '|' ∉ u) →
      ts.length < fuel →
      parse_loop cap fuel option (t ++ join_tokens ts) st = fold_fields cap option (t :: ts) st := by
  induction ts with
  | nil =>
    intro fuel option t st ht _ hf
    obtain ⟨f, rfl⟩ : ∃ f, fuel = f + 1 := ⟨fuel - 1, by simp at hf; omega⟩
    simp [join_tokens, parse_loop_last _ _ _ _ _ ht, fold_fields]
  | cons u us ih =>
    intro fuel option t st ht hts hf
    obtain ⟨f, rfl⟩ : ∃ f, fuel = f + 1 := ⟨fuel - 1, by simp at hf; omega⟩
    have hu : '|' ∉ u := hts u (List.mem_cons_self _ _)
    have hus : ∀ w ∈ us, '|' ∉ w := fun w hw => hts w (List.mem_cons_of_mem _ hw)
    have hf2 : us.length < f := by simp at hf; omega
    simp only [join_tokens]
    rw [parse_loop_more _ _ _ _ _ _ ht, ih f (option + 1) u _ hu hus hf2]
    simp [fold_fields]

theorem length_join_tokens (ts : List CStr) : ts.length ≤ (join_tokens ts).length := by
  induction ts with
  | nil => simp [join_tokens]
  | cons t ts ih => simp [join_tokens]; omega

theorem txfax_parse_fields (k : Consts) (f : CStr) (ts : List CStr)
    (hf : '|' ∉ f) (hts : ∀ u ∈ ts, '|' ∉ u) :
    txfax_parse k (f ++ join_tokens ts) =
      fold_fields (buf_size k) 0 (f :: ts)
        { source_file := [], calling_party := false, verbose := false } := by
  unfold txfax_parse
  apply parse_loop_fields _ _ _ _ _ _ hf hts
  have := length_join_tokens ts
  simp only [List.length_append]
  omega

/-! ## The parser in terms of the fields of the invocation string -/

theorem parse_field_flag (option : Nat) (t : CStr) (st : Parsed) (h : 0 < option) :
    parse_field option t t.length st =
      { source_file := st.source_file
        calling_party := st.calling_party || is_caller t
        verbose := st.verbose || is_debug t } := by
  have h0 : ¬ option = 0 := by omega
  unfold parse_field is_debug is_caller
  simp only [h0, if_false]
  by_cases hc : strncmp "caller".toList t t.length = 0
  · simp only [hc, if_true, decide_True, Bool.or_true, Bool.not_true, Bool.false_and,
      Bool.or_false]
  · by_cases hd : strncmp "debug".toList t t.length = 0
    · simp only [hc, hd, if_true, if_false, decide_True, decide_False, Bool.or_true,
        Bool.not_false, Bool.true_and, Bool.or_false]
    · simp only [hc, hd, if_false, decide_False, Bool.not_false, Bool.true_and,
        Bool.or_false]

theorem fold_fields_flags (cap : Nat) (ts : List CStr) :
    ∀ (option : Nat) (st : Parsed), 0 < option →
      fold_fields cap option ts st =
        if ts.any (fun t => decide (cap < t.length + 1)) then .overrun
        else .ok { source_file := st.source_file
                   calling_party := st.calling_party || ts.any is_caller
                   verbose := st.verbose || ts.any is_debug } := by
  induction ts with
  | nil => intro option st _; simp [fold_fields]
  | cons t ts ih =>
    intro option st h
    by_cases hcap : cap < t.length + 1
    · simp [fold_fields, hcap]
    · rw [fold_fields, if_neg hcap, ih (option + 1) _ (Nat.succ_pos _), parse_field_flag _ _ _ h]
      simp [hcap, Bool.or_assoc]

/-- The parser on a first field `f` and tokens `ts` (none containing the delimiter):
a field that does not fit `buf` with its NUL overruns it; otherwise the path is the
first 255 bytes of `f` and each flag is set when some token passes its test. -/
theorem txfax_parse_spec (k : Consts) (f : CStr) (ts : List CStr)
    (hf : '|' ∉ f) (hts : ∀ u ∈ ts, '|' ∉ u) :
    txfax_parse k (f ++ join_tokens ts) =
      if (f :: ts).any (fun t => decide (buf_size k < t.length + 1)) then .overrun
      else .ok { source_file := f.take 255
                 calling_party := ts.any is_caller
                 verbose := ts.any is_debug } := by
  rw [txfax_parse_fields k f ts hf hts, fold_fields]
  by_cases hcap : buf_size k < f.length + 1
  · simp [hcap]
  · rw [if_neg hcap, fold_fields_flags _ _ _ _ (by decide)]
    have htake : strncpy f (if f.length > 255 then 255 else f.length) = f.take 255 := by
      unfold strncpy
      split
      · rfl
      · rw [List.take_of_length_le (le_refl _), List.take_of_length_le (by omega)]
    simp [parse_field, hcap, htake]

theorem parse_loop_ne_fuel (cap : Nat) :
    ∀ (fuel option : Nat) (s : CStr) (st : Parsed), s.length < fuel →
      parse_loop cap fuel option s st ≠ .fuel := by
  intro fuel
  induction fuel with
  | zero => intro _ _ _ h; omega
  | succ n ih =>
    intro option s st h
    unfold parse_loop
    simp only
    split
    · simp
    · cases hv : strchr s '|' with
      | none => simp
      | some p =>
        simp only
        apply ih
        have := strchr_some_length s '|' p hv
        simp only [List.length_drop]
        omega

/-- The parsing loop ends on every invocation string. -/
theorem txfax_parse_ne_fuel (k : Consts) (data : CStr) : txfax_parse k data ≠ .fuel :=
  parse_loop_ne_fuel _ _ _ _ _ (Nat.lt_succ_self _)

theorem any_congr_of_mem_iff {α : Type} (p : α → Bool) (l1 l2 : List α)
    (h : ∀ x, x ∈ l1 ↔ x ∈ l2) : l1.any p = l2.any p := by
  rw [Bool.eq_iff_iff, List.any_eq_true, List.any_eq_true]
  constructor
  · rintro ⟨x, hx, hp⟩; exact ⟨x, (h x).1 hx, hp⟩
  · rintro ⟨x, hx, hp⟩; exact ⟨x, (h x).2 hx, hp⟩

theorem buf_size_eq (k : Consts) : buf_size k = 480 + k.AST_FRIENDLY_OFFSET := by
  unfold buf_size MAX_BLOCK_SIZE
  omega

/-! ## The option parser: flags and path -/

/-- C1: at the invocation string `f|` the token after the delimiter is empty, and
the parser sets `calling_party`; at `f|de`, a proper start of `debug`, it sets
`verbose`. The test `strncmp("caller", t, s - t) == 0` compares only the `s - t`
bytes of the token. -/
theorem C1_short_token_sets_flag :
    txfax_parse asterisk14 "f|".toList =
        .ok { source_file := "f".toList, calling_party := true, verbose := false }
    ∧ txfax_parse asterisk14 "f|de".toList =
        .ok { source_file := "f".toList, calling_party := false, verbose := true } := by
  decide

theorem txfax_parse_long_field (k : Consts) (f : CStr) (hf : '|' ∉ f)
    (hlen : buf_size k ≤ f.length) : txfax_parse k f = .overrun := by
  have h := txfax_parse_spec k f [] hf (by simp)
  simp only [join_tokens, List.append_nil] at h
  rw [h]
  have : buf_size k < f.length + 1 := by omega
  simp [this]

/-- C5: at an invocation string of 1000 bytes without delimiter, with
`AST_FRIENDLY_OFFSET` 64 (544 bytes in `buf`), the copy of the first field into
`buf` (lines 154-155) writes past the end of `__buf` before `source_file` is
filled in. -/
theorem C5_long_field_overruns_buf :
    txfax_parse asterisk14 (List.replicate 1000 'a') = .overrun :=
  txfax_parse_long_field asterisk14 (List.replicate 1000 'a')
    (fun h => absurd (List.eq_of_mem_replicate h) (by decide))
    (by rw [List.length_replicate, buf_size_eq]; decide)

theorem txfax_parse_long_token (k : Consts) (f : CStr) (ts : List CStr) (t : CStr)
    (hf : '|' ∉ f) (hts : ∀ u ∈ ts, '|' ∉ u) (ht : t ∈ f :: ts)
    (hlen : buf_size k ≤ t.length) : txfax_parse k (f ++ join_tokens ts) = .overrun := by
  rw [txfax_parse_spec k f ts hf hts]
  have hany : (f :: ts).any (fun u => decide (buf_size k < u.length + 1)) = true :=
    List.any_eq_true.2 ⟨t, ht, by simp only [decide_eq_true_eq]; omega⟩
  rw [if_pos hany]

/-- For a first field `f` and two lists of flag tokens without delimiter that have
the same elements, all fields fitting `buf` with their NUL: the parser returns on
both invocation strings, with the same path (the first 255 bytes of `f`) and the
same flags. -/
theorem txfax_parse_token_set (k : Consts) (f : CStr) (ts1 ts2 : List CStr)
    (hf : '|' ∉ f) (h1 : ∀ u ∈ ts1, '|' ∉ u) (h2 : ∀ u ∈ ts2, '|' ∉ u)
    (hset : ∀ t, t ∈ ts1 ↔ t ∈ ts2) (hfit : ∀ t ∈ f :: ts1, t.length < buf_size k) :
    txfax_parse k (f ++ join_tokens ts1) =
        .ok { source_file := f.take 255
              calling_party := ts1.any is_caller
              verbose := ts1.any is_debug }
    ∧ txfax_parse k (f ++ join_tokens ts2) = txfax_parse k (f ++ join_tokens ts1) := by
  have e1 := any_congr_of_mem_iff (fun t => decide (buf_size k < t.length + 1)) ts1 ts2 hset
  have e2 := any_congr_of_mem_iff is_caller ts1 ts2 hset
  have e3 := any_congr_of_mem_iff is_debug ts1 ts2 hset
  have hno : (f :: ts1).any (fun t => decide (buf_size k < t.length + 1)) = false := by
    rw [List.any_eq_false]
    intro t ht
    have := hfit t ht
    simp only [decide_eq_true_eq]
    omega
  constructor
  · rw [txfax_parse_spec k f ts1 hf h1, hno]
    simp
  · rw [txfax_parse_spec k f ts1 hf h1, txfax_parse_spec k f ts2 hf h2]
    simp only [List.any_cons, e1, e2, e3]

/-- C10: at the first field `a` with the tokens `caller` and 600 bytes `b`, in
either order (`AST_FRIENDLY_OFFSET` 64, so 544 bytes in `buf`), the copy of the
long token into `buf` (lines 154-155) writes past the end of `__buf`: the parser
yields no path and flags on either string. -/
theorem C10_long_token_overruns_buf :
    txfax_parse asterisk14
        ("a".toList ++ join_tokens ["caller".toList, List.replicate 600 'b']) = .overrun
    ∧ txfax_parse asterisk14
        ("a".toList ++ join_tokens [List.replicate 600 'b', "caller".toList]) = .overrun := by
  have hb : '|' ∉ List.replicate 600 'b' :=
    fun h => absurd (List.eq_of_mem_replicate h) (by decide)
  have hc : '|' ∉ "caller".toList := by decide
  have hlen : buf_size asterisk14 ≤ (List.replicate 600 'b').length := by
    rw [List.length_replicate, buf_size_eq]; decide
  constructor
  · refine txfax_parse_long_token asterisk14 _ _ (List.replicate 600 'b') (by decide) ?_
      (List.mem_cons_of_mem _ (List.mem_cons_of_mem _ (List.mem_cons_self _ _))) hlen
    intro u hu
    rcases List.mem_cons.1 hu with rfl | hu
    · exact hc
    · rcases List.mem_cons.1 hu with rfl | hu
      · exact hb
      · cases hu
  · refine txfax_parse_long_token asterisk14 _ _ (List.replicate 600 'b') (by decide) ?_
      (List.mem_cons_of_mem _ (List.mem_cons_self _ _)) hlen
    intro u hu
    rcases List.mem_cons.1 hu with rfl | hu
    · exact hb
    · rcases List.mem_cons.1 hu with rfl | hu
      · exact hc
      · cases hu

/-! ## The result of a session -/

/-- C2: on an answered channel whose read encoding (4) is not linear PCM (64), with
every request succeeding and the first `ast_read` reporting end of stream,
`txfax_exec` returns 0: the `-1` set at line 262 is overwritten at line 266 by the
answer of the restoring `ast_set_read_format`. -/
theorem C2_hangup_result_overwritten :
    txfax_exec asterisk14 (some (chan_up 4 64)) (some "f".toList) (oracle_ok [tick_hangup]) =
      .ret 0 [.span_set_message_handler, .ast_module_user_add,
        .ast_set_read_format 64 .acquire,
        .fax_init false, .t30_set_tx_file "f".toList, .t30_set_phase_e_handler,
        .t30_set_ecm_capability, .t30_set_supported_compressions,
        .ast_waitfor, .ast_read,
        .ast_set_read_format 4 .restore,
        .t30_terminate, .ast_module_user_remove] := by
  decide

/-- C3: two runs that end by engine stop on the first voice frame and differ only
in the answer of the restoring `ast_set_read_format` (0 and -1) return 0 and -1. -/
theorem C3_restore_failure_returned :
    txfax_exec asterisk14 (some (chan_up 4 64)) (some "f".toList)
        (oracle_ok [tick_voice 160 1 0 0]) =
      .ret 0 [.span_set_message_handler, .ast_module_user_add,
        .ast_set_read_format 64 .acquire,
        .fax_init false, .t30_set_tx_file "f".toList, .t30_set_phase_e_handler,
        .t30_set_ecm_capability, .t30_set_supported_compressions,
        .ast_waitfor, .ast_read, .fax_rx 160,
        .ast_set_read_format 4 .restore,
        .t30_terminate, .ast_module_user_remove]
    ∧ txfax_exec asterisk14 (some (chan_up 4 64)) (some "f".toList)
        { oracle_ok [tick_voice 160 1 0 0] with restore_read := -1 } =
      .ret (-1) [.span_set_message_handler, .ast_module_user_add,
        .ast_set_read_format 64 .acquire,
        .fax_init false, .t30_set_tx_file "f".toList, .t30_set_phase_e_handler,
        .t30_set_ecm_capability, .t30_set_supported_compressions,
        .ast_waitfor, .ast_read, .fax_rx 160,
        .ast_set_read_format 4 .restore,
        .t30_terminate, .ast_module_user_remove] := by
  decide

/-- C4, the claim refuted: with the empty invocation string on a channel that is
not yet up, the channel is answered, the engine is started with an empty path,
frames are read, and the result is 0 when the engine stops. -/
theorem C4_empty_string_runs_session :
    txfax_exec asterisk14
        (some { _state := 0, readformat := 64, writeformat := 64, vars := fun _ => none })
        (some []) (oracle_ok [tick_voice 160 1 0 0]) =
      .ret 0 [.span_set_message_handler, .ast_module_user_add, .ast_answer,
        .fax_init false, .t30_set_tx_file [], .t30_set_phase_e_handler,
        .t30_set_ecm_capability, .t30_set_supported_compressions,
        .ast_waitfor, .ast_read, .fax_rx 160,
        .t30_terminate, .ast_module_user_remove] := by
  decide

/-- C4 as amended: with a NULL invocation string `txfax_exec` returns -1 and the
only call it has made is `span_set_message_handler` (none at all when the channel
is NULL): no answer, no format request, no frame read or written, no engine. -/
theorem C4_null_string_returns_early (k : Consts) (chan : Option Chan) (o : Oracle) :
    ∃ tr, txfax_exec k chan none o = .ret (-1) tr
      ∧ ∀ e ∈ tr, e = Ev.span_set_message_handler := by
  cases chan with
  | none => exact ⟨[], rfl, by simp⟩
  | some c => exact ⟨[.span_set_message_handler], rfl, by simp⟩

/-- C9, the claim refuted: the read encoding is linear PCM from the start (64), so
no forward change of it is made, the forward write request fails, and a request
restoring the read encoding is issued all the same (line 205). -/
theorem C9_read_restored_without_change :
    txfax_exec asterisk14 (some (chan_up 64 8)) (some "f".toList)
        { oracle_ok [] with set_write_slinear := -1 } =
      .ret (-1) [.span_set_message_handler, .ast_module_user_add,
        .ast_set_write_format 64 .acquire,
        .ast_set_read_format 64 .restore]
    ∧ ¬ ((chan_up 64 8).readformat ≠ asterisk14.AST_FORMAT_SLINEAR) := by
  decide

/-! ## The completion handler -/

/-- C8: after `phase_e_handler` with completion code `r`: if `r` is `T30_ERR_OK`,
`REMOTESTATIONID` is the far-end identity and `TXFAXRESULT` is `SUCCESS`; otherwise
`TXFAXRESULT` is `ERROR`, `REMOTESTATIONID` is as before and is not written; in both
cases `TXFAXRESULT` is written once, with `SUCCESS` or `ERROR`, and every other
variable is as before. -/
theorem C8_completion_handler (k : Consts) (far : CStr) (env : Env) (r : Int) :
    (r = k.T30_ERR_OK →
        (phase_e_handler k far env r).1 "REMOTESTATIONID" = some far
        ∧ (phase_e_handler k far env r).1 "TXFAXRESULT" = some "SUCCESS".toList)
    ∧ (r ≠ k.T30_ERR_OK →
        (phase_e_handler k far env r).1 "TXFAXRESULT" = some "ERROR".toList
        ∧ (phase_e_handler k far env r).1 "REMOTESTATIONID" = env "REMOTESTATIONID"
        ∧ ∀ v, ("REMOTESTATIONID", v) ∉ (phase_e_handler k far env r).2)
    ∧ ((phase_e_handler k far env r).2.filter
          (fun c => decide (c.1 = "TXFAXRESULT"))).length = 1
    ∧ (∀ c ∈ (phase_e_handler k far env r).2, c.1 = "TXFAXRESULT" →
        c.2 = "SUCCESS".toList ∨ c.2 = "ERROR".toList)
    ∧ (∀ n, n ≠ "REMOTESTATIONID" → n ≠ "TXFAXRESULT" →
        (phase_e_handler k far env r).1 n = env n) := by
  by_cases h : r = k.T30_ERR_OK
  · simp [phase_e_handler, pbx_builtin_setvar_helper, h]
    intro n h1 h2
    simp [h1, h2]
  · simp [phase_e_handler, pbx_builtin_setvar_helper, h]
    intro n _ h2 h3
    exact absurd h3 h2

/-- C8 at the far-end identity `5551212`, no variable set before, and the codes 0
and 7 (with `T30_ERR_OK` 0). -/
theorem C8_completion_handler_witness :
    ((phase_e_handler asterisk14 "5551212".toList (fun _ => none) 0).1 "REMOTESTATIONID"
        = some "5551212".toList
      ∧ (phase_e_handler asterisk14 "5551212".toList (fun _ => none) 0).1 "TXFAXRESULT"
        = some "SUCCESS".toList)
    ∧ ((phase_e_handler asterisk14 "5551212".toList (fun _ => none) 7).1 "TXFAXRESULT"
        = some "ERROR".toList
      ∧ (phase_e_handler asterisk14 "5551212".toList (fun _ => none) 7).1 "REMOTESTATIONID"
        = none) :=
  ⟨(C8_completion_handler asterisk14 "5551212".toList (fun _ => none) 0).1 (by decide),
   ((C8_completion_handler asterisk14 "5551212".toList (fun _ => none) 7).2.1 (by decide)).1,
   ((C8_completion_handler asterisk14 "5551212".toList (fun _ => none) 7).2.1 (by decide)).2.1⟩

/-! ## The bridge loop -/

theorem to_int_small (x : Int) (h0 : 0 ≤ x) (h1 : x ≤ 480) : to_int x = x := by
  unfold to_int
  norm_num
  omega

/-- C7: in one pass of the loop on a voice frame of `n >= 0` samples, the engine is
drained only with `max_samples = min(n, 240)`, and is drained when the feed does not
ask to stop; if the engine returns `len` with `0 <= len <= max_samples`, every frame
written has `samples = len <= min(n, 240)` and `datalen = 2*len <= 480`; no frame is
written when `len = 0`, and at most one frame is written. -/
theorem C7_outbound_frame_bounded (k : Consts) (t : Tick) (res : Int) (inf : Frame)
    (hread : t.read = some inf) (hvoice : inf.frametype = k.AST_FRAME_VOICE)
    (_hn : 0 ≤ inf.samples) (hlen0 : 0 ≤ t.tx) (hlen : t.tx ≤ min inf.samples 240) :
    (∀ m, Ev.fax_tx m ∈ (bridge_step k t res).1 → m = min inf.samples 240)
    ∧ (t.rx = 0 → Ev.fax_tx (min inf.samples 240) ∈ (bridge_step k t res).1)
    ∧ (∀ f, Ev.ast_write f ∈ (bridge_step k t res).1 →
        f.samples = t.tx ∧ f.samples ≤ min inf.samples 240
        ∧ f.datalen = 2 * t.tx ∧ f.datalen ≤ 480)
    ∧ (t.tx = 0 → ∀ f, Ev.ast_write f ∉ (bridge_step k t res).1)
    ∧ (bridge_step k t res).1.countP Ev.is_write ≤ 1 := by
  have hmin : (if inf.samples ≤ (MAX_BLOCK_SIZE : Int) then inf.samples else MAX_BLOCK_SIZE)
      = min inf.samples 240 := by
    unfold MAX_BLOCK_SIZE
    split
    · rw [min_eq_left]; simpa using ‹_›
    · rw [min_eq_right]; simp; push_cast at *; omega
  have h240 : t.tx ≤ 240 := le_trans hlen (min_le_right _ _)
  have hd : to_int (t.tx * 2) = 2 * t.tx := by
    rw [to_int_small _ (by omega) (by omega)]; ring
  unfold bridge_step
  simp only [hread, hvoice, if_true, hmin]
  by_cases hrx : t.rx = 0
  · by_cases htx : t.tx = 0
    · simp [hrx, htx, Ev.is_write]
    · by_cases hw : t.write < 0
      · simp only [hrx, htx, hw, ne_eq, not_true_eq_false, not_false_eq_true, if_true, if_false]
        simp [make_outf, hd, Ev.is_write, hlen]
        omega
      · simp only [hrx, htx, hw, ne_eq, not_true_eq_false, not_false_eq_true, if_true, if_false]
        simp [make_outf, hd, Ev.is_write, hlen]
        omega
  · simp [hrx, Ev.is_write]

/-- C7 at a voice frame of 160 samples for which the engine generates 160. -/
theorem C7_outbound_frame_bounded_witness :
    Ev.ast_write (make_outf asterisk14 160)
        ∈ (bridge_step asterisk14 (tick_voice 160 0 160 0) 0).1
    ∧ (make_outf asterisk14 160).datalen = 320
    ∧ ∀ f, Ev.ast_write f ∈ (bridge_step asterisk14 (tick_voice 160 0 160 0) 0).1 →
        f.samples = 160 ∧ f.samples ≤ min 160 240 ∧ f.datalen = 2 * 160 ∧ f.datalen ≤ 480 :=
  ⟨by decide, by decide,
   (C7_outbound_frame_bounded asterisk14 (tick_voice 160 0 160 0) 0
      { frametype := 2, samples := 160 } rfl rfl (by decide) (by decide) (by decide)).2.2.1⟩

/-! ## Format negotiation -/

theorem txfax_exec_answered (k : Consts) (c : Chan) (d : CStr) (p : Parsed) (o : Oracle)
    (hp : txfax_parse k d = .ok p) (hans : c._state = k.AST_STATE_UP ∨ o.answer = 0) :
    txfax_exec k (some c) (some d) o = negotiate k c o p (entry_events k c) := by
  unfold txfax_exec entry_events
  simp only [hp]
  by_cases hs : c._state = k.AST_STATE_UP
  · simp [hs]
  · have ha : o.answer = 0 := hans.resolve_left hs
    simp [hs, ha]

theorem negotiate_failure (k : Consts) (c : Chan) (p : Parsed) (o : Oracle) :
    (read_failed k c o →
      ∃ tr, negotiate k c o p (entry_events k c) = .ret (-1) tr
        ∧ tr = entry_events k c ++ [.ast_set_read_format k.AST_FORMAT_SLINEAR .acquire]
        ∧ (∀ fmt role, Ev.ast_set_write_format fmt role ∉ tr)
        ∧ (∀ b, Ev.fax_init b ∉ tr) ∧ Ev.ast_waitfor ∉ tr)
    ∧ (write_failed k c o →
      ∃ tr, negotiate k c o p (entry_events k c) = .ret (-1) tr
        ∧ tr = entry_events k c
            ++ (if c.readformat ≠ k.AST_FORMAT_SLINEAR
                then [.ast_set_read_format k.AST_FORMAT_SLINEAR .acquire] else [])
            ++ [.ast_set_write_format k.AST_FORMAT_SLINEAR .acquire,
                .ast_set_read_format c.readformat .restore]
        ∧ (∀ b, Ev.fax_init b ∉ tr) ∧ Ev.ast_waitfor ∉ tr) := by
  constructor
  · rintro ⟨h1, h2⟩
    refine ⟨_, ?_, rfl, ?_⟩
    · simp [negotiate, h1, h2]
    · unfold entry_events
      split <;> simp
  · rintro ⟨h0, h1, h2⟩
    have h0' : ¬ (c.readformat ≠ k.AST_FORMAT_SLINEAR ∧ o.set_read_slinear < 0) := h0
    refine ⟨_, ?_, rfl, ?_⟩
    · unfold negotiate
      by_cases hr : c.readformat = k.AST_FORMAT_SLINEAR
      · simp [hr, h1, h2]
      · have h3 : ¬ o.set_read_slinear < 0 := fun h => h0' ⟨hr, h⟩
        simp [hr, h1, h2, h3]
    · unfold entry_events
      split <;> split <;> simp

/-- C6: on an answered channel with a parsed string: if the forward read request is
made and fails, `txfax_exec` returns -1 having made no write request; if the
forward write request is made and fails, `txfax_exec` returns -1 and its last call
is the request that puts the read encoding back to its original value, whatever
that request answers; in both cases `fax_init` and `ast_waitfor` are never called. -/
theorem C6_negotiation_fails_closed (k : Consts) (c : Chan) (d : CStr) (p : Parsed)
    (o : Oracle) (hp : txfax_parse k d = .ok p)
    (hans : c._state = k.AST_STATE_UP ∨ o.answer = 0) :
    (read_failed k c o →
      ∃ tr, txfax_exec k (some c) (some d) o = .ret (-1) tr
        ∧ tr = entry_events k c ++ [.ast_set_read_format k.AST_FORMAT_SLINEAR .acquire]
        ∧ (∀ fmt role, Ev.ast_set_write_format fmt role ∉ tr)
        ∧ (∀ b, Ev.fax_init b ∉ tr) ∧ Ev.ast_waitfor ∉ tr)
    ∧ (write_failed k c o →
      ∃ tr, txfax_exec k (some c) (some d) o = .ret (-1) tr
        ∧ tr = entry_events k c
            ++ (if c.readformat ≠ k.AST_FORMAT_SLINEAR
                then [.ast_set_read_format k.AST_FORMAT_SLINEAR .acquire] else [])
            ++ [.ast_set_write_format k.AST_FORMAT_SLINEAR .acquire,
                .ast_set_read_format c.readformat .restore]
        ∧ (∀ b, Ev.fax_init b ∉ tr) ∧ Ev.ast_waitfor ∉ tr) := by
  rw [txfax_exec_answered k c d p o hp hans]
  exact negotiate_failure k c p o

/-- C6 at a channel whose forward read request fails, and at one whose forward
write request fails (encodings 4 and 8, linear PCM 64). -/
theorem C6_negotiation_fails_closed_witness :
    txfax_exec asterisk14 (some (chan_up 4 8)) (some "f".toList)
        { oracle_ok [] with set_read_slinear := -1 } =
      .ret (-1) [.span_set_message_handler, .ast_module_user_add,
        .ast_set_read_format 64 .acquire]
    ∧ txfax_exec asterisk14 (some (chan_up 4 8)) (some "f".toList)
        { oracle_ok [] with set_write_slinear := -1, undo_read := -1 } =
      .ret (-1) [.span_set_message_handler, .ast_module_user_add,
        .ast_set_read_format 64 .acquire, .ast_set_write_format 64 .acquire,
        .ast_set_read_format 4 .restore] := by
  constructor
  · obtain ⟨tr, h1, h2, _⟩ := (C6_negotiation_fails_closed asterisk14 (chan_up 4 8)
      "f".toList { source_file := "f".toList, calling_party := false, verbose := false }
      { oracle_ok [] with set_read_slinear := -1 } (by decide) (Or.inl rfl)).1
      ⟨by decide, by decide⟩
    subst h2
    exact h1
  · obtain ⟨tr, h1, h2, _⟩ := (C6_negotiation_fails_closed asterisk14 (chan_up 4 8)
      "f".toList { source_file := "f".toList, calling_party := false, verbose := false }
      { oracle_ok [] with set_write_slinear := -1, undo_read := -1 } (by decide)
      (Or.inl rfl)).2 ⟨by unfold read_failed; decide, by decide, by decide⟩
    subst h2
    exact h1

/-! ## Restoration of the encodings -/

theorem bridge_step_all (k : Consts) (t : Tick) (res : Int) :
    (bridge_step k t res).1.all (fun e => !e.is_format_request) = true := by
  unfold bridge_step
  cases t.read with
  | none => rfl
  | some inf =>
    simp only
    split_ifs <;> rfl

theorem bridge_loop_all (k : Consts) (ts : List Tick) :
    ∀ (res : Int) (inf_null : Bool),
      (bridge_loop k ts res inf_null).1.all (fun e => !e.is_format_request) = true := by
  induction ts with
  | nil => intro _ _; rfl
  | cons t ts ih =>
    intro res inf_null
    unfold bridge_loop
    by_cases hw : t.waitfor > -1
    · simp only [hw, if_true]
      have hs := bridge_step_all k t res
      rcases hb : bridge_step k t res with ⟨evs, _ | e⟩
      · rw [hb] at hs
        simp only at hs ⊢
        rw [List.all_append, List.all_cons, hs, ih res false]
        rfl
      · rw [hb] at hs
        simp only at hs ⊢
        rw [List.all_cons, hs]
        rfl
    · simp only [hw, if_false]
      rfl

theorem engine_setup_all (c : Chan) (p : Parsed) :
    (engine_setup c p).all (fun e => !e.is_format_request) = true := by
  unfold engine_setup
  simp only [List.all_append, Bool.and_eq_true]
  refine ⟨⟨⟨⟨rfl, ?_⟩, ?_⟩, ?_⟩, rfl⟩
  · split <;> rfl
  · split <;> rfl
  · split <;> rfl

theorem entry_events_all (k : Consts) (c : Chan) :
    (entry_events k c).all (fun e => !e.is_format_request) = true := by
  unfold entry_events
  split <;> rfl

theorem not_mem_of_all (l : List Ev) (h : l.all (fun e => !e.is_format_request) = true)
    (e : Ev) (he : e.is_format_request = true) : e ∉ l := by
  intro hm
  have := List.all_eq_true.1 h e hm
  simp [he] at this

theorem release_events (k : Consts) (o : Oracle) (rf wf res : Int) :
    (release k o rf wf res).2 =
      (if rf ≠ k.AST_FORMAT_SLINEAR then [Ev.ast_set_read_format rf .restore] else [])
      ++ (if wf ≠ k.AST_FORMAT_SLINEAR then [Ev.ast_set_write_format wf .restore] else []) := by
  unfold release
  by_cases h1 : rf = k.AST_FORMAT_SLINEAR <;> by_cases h2 : wf = k.AST_FORMAT_SLINEAR <;>
    simp [h1, h2]

/-- The result after release is the answer of the last restoring request made, and
the result of the loop only when both encodings were linear PCM from the start. -/
theorem release_result (k : Consts) (o : Oracle) (rf wf res : Int) :
    (release k o rf wf res).1 =
      if wf ≠ k.AST_FORMAT_SLINEAR then o.restore_write
      else if rf ≠ k.AST_FORMAT_SLINEAR then o.restore_read else res := by
  unfold release
  by_cases h1 : rf = k.AST_FORMAT_SLINEAR <;> by_cases h2 : wf = k.AST_FORMAT_SLINEAR <;>
    simp [h1, h2]

theorem run_session_ret (k : Consts) (c : Chan) (o : Oracle) (p : Parsed) (pre : List Ev)
    (res r : Int) (tr : List Ev) (h : run_session k c o p pre res = .ret r tr) :
    ∃ mid res2, mid.all (fun e => !e.is_format_request) = true
      ∧ tr = pre ++ mid ++ (release k o c.readformat c.writeformat res2).2
          ++ [.t30_terminate, .ast_module_user_remove]
      ∧ r = (release k o c.readformat c.writeformat res2).1 := by
  unfold run_session at h
  have hl := bridge_loop_all k o.ticks res true
  rcases hb : bridge_loop k o.ticks res true with ⟨evs, _ | ⟨res1, inf_null⟩⟩
  · rw [hb] at h
    simp at h
  · rw [hb] at h hl
    simp only [Outcome.ret.injEq] at h
    refine ⟨engine_setup c p ++ evs, if inf_null then -1 else res1, ?_, ?_, h.1.symm⟩
    · rw [List.all_append, engine_setup_all, hl]
      rfl
    · rw [← h.2]
      simp only [List.append_assoc]

theorem negotiate_session (k : Consts) (c : Chan) (o : Oracle) (p : Parsed) (pre : List Ev)
    (h1 : ¬ read_failed k c o) (h2 : ¬ write_failed k c o) :
    negotiate k c o p pre =
      run_session k c o p
        (pre
          ++ (if c.readformat ≠ k.AST_FORMAT_SLINEAR
              then [Ev.ast_set_read_format k.AST_FORMAT_SLINEAR .acquire] else [])
          ++ (if c.writeformat ≠ k.AST_FORMAT_SLINEAR
              then [Ev.ast_set_write_format k.AST_FORMAT_SLINEAR .acquire] else []))
        (if c.writeformat ≠ k.AST_FORMAT_SLINEAR then o.set_write_slinear
         else if c.readformat ≠ k.AST_FORMAT_SLINEAR then o.set_read_slinear else 0) := by
  unfold negotiate
  have h1' : ¬ (c.readformat ≠ k.AST_FORMAT_SLINEAR ∧ o.set_read_slinear < 0) := h1
  have h2' : ¬ (c.writeformat ≠ k.AST_FORMAT_SLINEAR ∧ o.set_write_slinear < 0) :=
    fun h => h2 ⟨h1, h.1, h.2⟩
  by_cases hr : c.readformat = k.AST_FORMAT_SLINEAR <;>
    by_cases hw : c.writeformat = k.AST_FORMAT_SLINEAR
  · simp [hr, hw]
  · have : ¬ o.set_write_slinear < 0 := fun h => h2' ⟨hw, h⟩
    simp [hr, hw, this]
  · have : ¬ o.set_read_slinear < 0 := fun h => h1' ⟨hr, h⟩
    simp [hr, hw, this]
  · have h3 : ¬ o.set_read_slinear < 0 := fun h => h1' ⟨hr, h⟩
    have h4 : ¬ o.set_write_slinear < 0 := fun h => h2' ⟨hw, h⟩
    simp [hr, hw, h3, h4]

theorem bridge_step_ends (k : Consts) (t : Tick) (res : Int) :
    (bridge_step k t res).2.isSome = (bridge_step k t 0).2.isSome := by
  unfold bridge_step
  cases t.read with
  | none => rfl
  | some inf =>
    simp only
    split_ifs <;> rfl

theorem bridge_loop_ends (k : Consts) (ts : List Tick) :
    ∀ (res : Int) (inf_null : Bool),
      (bridge_loop k ts res inf_null).2.isSome = loop_ends k ts := by
  induction ts with
  | nil => intro _ _; rfl
  | cons t ts ih =>
    intro res inf_null
    unfold bridge_loop loop_ends
    rw [List.any_cons]
    unfold tick_ends
    rw [← bridge_step_ends k t res]
    by_cases hw : t.waitfor > -1
    · simp only [hw, if_true, not_true_eq_false, decide_False, Bool.false_or]
      rcases hb : bridge_step k t res with ⟨evs, _ | e⟩
      · simp only [Option.isSome_none, Bool.false_or]
        exact ih res false
      · rfl
    · simp only [hw, if_false, not_false_eq_true, decide_True, Bool.true_or]
      rfl

theorem run_session_returns (k : Consts) (c : Chan) (o : Oracle) (p : Parsed)
    (pre : List Ev) (res : Int) (h : loop_ends k o.ticks = true) :
    ∃ r tr, run_session k c o p pre res = .ret r tr := by
  unfold run_session
  have hl := bridge_loop_ends k o.ticks res true
  rw [h] at hl
  rcases hb : bridge_loop k o.ticks res true with ⟨evs, _ | ⟨res1, inf_null⟩⟩
  · rw [hb] at hl
    simp at hl
  · exact ⟨_, _, rfl⟩

theorem no_format_in_entry (k : Consts) (c : Chan) (e : Ev)
    (he : e.is_format_request = true) : e ∉ entry_events k c :=
  not_mem_of_all _ (entry_events_all k c) e he

/-- C9 as amended: a run on an answered channel with a parsed string returns when
a forward request fails or the loop ends; in a run that returns, a request
restoring the write encoding is issued exactly when the forward write change was
made; a request restoring the read encoding is issued exactly when the forward
read change was made or the forward write request failed (then it is issued even
if the read encoding was linear PCM from the start); each restoring request
targets the value recorded from the channel. The answers of the restoring requests
play no part, so a failed read restore does not stop the write restore. -/
theorem C9_restores_after_negotiation (k : Consts) (c : Chan) (d : CStr) (p : Parsed)
    (o : Oracle) (hp : txfax_parse k d = .ok p)
    (hans : c._state = k.AST_STATE_UP ∨ o.answer = 0) :
    ((read_failed k c o ∨ write_failed k c o ∨ loop_ends k o.ticks = true) →
      ∃ r tr, txfax_exec k (some c) (some d) o = .ret r tr)
    ∧ ∀ r tr, txfax_exec k (some c) (some d) o = .ret r tr →
      ((∃ fmt, Ev.ast_set_write_format fmt .restore ∈ tr) ↔ write_changed k c o)
      ∧ ((∃ fmt, Ev.ast_set_read_format fmt .restore ∈ tr) ↔
          (read_changed k c o ∨ write_failed k c o))
      ∧ (∀ fmt, Ev.ast_set_read_format fmt .restore ∈ tr → fmt = c.readformat)
      ∧ (∀ fmt, Ev.ast_set_write_format fmt .restore ∈ tr → fmt = c.writeformat) := by
  rw [txfax_exec_answered k c d p o hp hans]
  constructor
  · intro h
    by_cases hrf : read_failed k c o
    · obtain ⟨tr, e, -⟩ := (negotiate_failure k c p o).1 hrf
      exact ⟨_, _, e⟩
    · by_cases hwf : write_failed k c o
      · obtain ⟨tr, e, -⟩ := (negotiate_failure k c p o).2 hwf
        exact ⟨_, _, e⟩
      · rw [negotiate_session k c o p _ hrf hwf]
        exact run_session_returns k c o p _ _ ((h.resolve_left hrf).resolve_left hwf)
  intro r tr hret
  have hEr : ∀ fmt role, Ev.ast_set_read_format fmt role ∉ entry_events k c :=
    fun _ _ => no_format_in_entry k c _ rfl
  have hEw : ∀ fmt role, Ev.ast_set_write_format fmt role ∉ entry_events k c :=
    fun _ _ => no_format_in_entry k c _ rfl
  by_cases hrf : read_failed k c o
  · have hn : negotiate k c o p (entry_events k c) =
        .ret (-1) (entry_events k c ++ [.ast_set_read_format k.AST_FORMAT_SLINEAR .acquire]) := by
      simp [negotiate, hrf.1, hrf.2]
    rw [hn] at hret
    simp only [Outcome.ret.injEq] at hret
    obtain ⟨-, rfl⟩ := hret
    have h1 : ¬ write_changed k c o := fun h => h.1 hrf
    have h2 : ¬ write_failed k c o := fun h => h.1 hrf
    have h3 : ¬ read_changed k c o := fun h => h.2 hrf.2
    simp [h1, h2, h3, hEr, hEw]
  · by_cases hwf : write_failed k c o
    · obtain ⟨tr2, e1, e2, -⟩ :=
        (negotiate_failure k c p o).2 hwf
      rw [e1] at hret
      simp only [Outcome.ret.injEq] at hret
      obtain ⟨-, rfl⟩ := hret
      subst e2
      have h1 : ¬ write_changed k c o := fun h => h.2.2 hwf.2.2
      simp only [h1, hwf, or_true, iff_true, iff_false, not_exists]
      by_cases hr : c.readformat = k.AST_FORMAT_SLINEAR
      · simp [hr, hEr, hEw]
      · simp [hr, hEr, hEw]
    · rw [negotiate_session k c o p _ hrf hwf] at hret
      obtain ⟨mid, res2, hmid, rfl, -⟩ := run_session_ret k c o p _ _ r tr hret
      have hMr : ∀ fmt role, Ev.ast_set_read_format fmt role ∉ mid :=
        fun _ _ => not_mem_of_all _ hmid _ rfl
      have hMw : ∀ fmt role, Ev.ast_set_write_format fmt role ∉ mid :=
        fun _ _ => not_mem_of_all _ hmid _ rfl
      rw [release_events]
      have hrf' : ¬ (c.readformat ≠ k.AST_FORMAT_SLINEAR ∧ o.set_read_slinear < 0) := hrf
      have hwf' : ¬ (c.writeformat ≠ k.AST_FORMAT_SLINEAR ∧ o.set_write_slinear < 0) :=
        fun h => hwf ⟨hrf, h.1, h.2⟩
      unfold write_changed read_changed
      by_cases hr : c.readformat = k.AST_FORMAT_SLINEAR <;>
        by_cases hw : c.writeformat = k.AST_FORMAT_SLINEAR
      · simp [hr, hw, hEr, hEw, hMr, hMw, hwf]
      · have h4 : ¬ o.set_write_slinear < 0 := fun h => hwf' ⟨hw, h⟩
        simp [hr, hw, hEr, hEw, hMr, hMw, hwf, hrf, h4]
      · have h3 : ¬ o.set_read_slinear < 0 := fun h => hrf' ⟨hr, h⟩
        simp [hr, hw, hEr, hEw, hMr, hMw, hwf, h3]
      · have h3 : ¬ o.set_read_slinear < 0 := fun h => hrf' ⟨hr, h⟩
        have h4 : ¬ o.set_write_slinear < 0 := fun h => hwf' ⟨hw, h⟩
        simp [hr, hw, hEr, hEw, hMr, hMw, hwf, hrf, h3, h4]

/-- C9 as amended, at a hangup on a channel with encodings 4 and 8 whose read
restore fails: the run returns and both restores are requested. -/
theorem C9_restores_after_negotiation_witness :
    (∃ r tr, txfax_exec asterisk14 (some (chan_up 4 8)) (some "f".toList) oracle_hangup =
      .ret r tr)
    ∧ ((∃ fmt, Ev.ast_set_write_format fmt .restore ∈ hangup_trace) ↔
        write_changed asterisk14 (chan_up 4 8) oracle_hangup)
    ∧ ((∃ fmt, Ev.ast_set_read_format fmt .restore ∈ hangup_trace) ↔
        (read_changed asterisk14 (chan_up 4 8) oracle_hangup
          ∨ write_failed asterisk14 (chan_up 4 8) oracle_hangup))
    ∧ Ev.ast_set_write_format 8 .restore ∈ hangup_trace :=
  have h := C9_restores_after_negotiation asterisk14 (chan_up 4 8) "f".toList
    { source_file := "f".toList, calling_party := false, verbose := false }
    oracle_hangup (by decide) (Or.inl rfl)
  have h2 := h.2 0 hangup_trace (by decide)
  ⟨h.1 (Or.inr (Or.inr (by decide))), h2.1, h2.2.1, by decide⟩

end TxFax
